import Mathlib

/-!
Verification of the schedumich schedule-search engine.

This file gives a shallow embedding of the core of the repository:

* `MeetingTime` and `MeetingTime.conflicts_with` (umich.py),
* `Building.from_section` building resolution (umich.py),
* `SectionGroup` construction with its assertions (umich.py),
* `ClassPicker._get_section_choices` / `pick_sections` with the two built-in
  conflict predicates (main.py),
* the `ScheduleCanvas` line/box drawing and section-box geometry (main.py).

Times of day are represented as minutes since midnight (`Nat`); the Python
code compares `time.struct_time` values produced by `strptime("%I:%M%p")`,
which agree on everything except hour/minute, so comparison of those structs
coincides with comparison of minutes-since-midnight.  Python `timedelta`
values are represented as signed minutes (`Int`); the `.seconds` accessor of
a normalized `timedelta` is `(60 * minutes) mod 86400` with floor modulus.

Fallible Python code (`raise`, `assert`, list indexing of an empty list) is
embedded in `Except`; the error payloads are small inductive types rather
than the formatted message strings of the source, since no claim inspects
message text.
-/

deriving instance DecidableEq for Except

namespace Schedumich

/-- A meeting time for a section (umich.py `MeetingTime`): the weekday
tokens it meets on, and begin/end times of day in minutes since midnight. -/
structure MeetingTime where
  day_list : List String
  time_begin : Nat
  time_end : Nat
deriving DecidableEq

/-- `MeetingTime.time_difference(time1, time2)`: the signed duration
`time2 - time1`, in minutes (the source returns a `datetime.timedelta`). -/
def MeetingTime.time_difference (time1 time2 : Nat) : Int :=
  (time2 : Int) - (time1 : Int)

/-- The `.seconds` field of a Python `timedelta` of the given signed number
of minutes: `timedelta` is normalized so that `.seconds` lies in
`[0, 86400)`, i.e. it is the floor modulus of the total seconds by 86400. -/
def timedeltaSeconds (minutes : Int) : Nat :=
  ((minutes * 60) % 86400).toNat

/-- `MeetingTime.length`, exposed as its `.seconds` value: the normalized
seconds of `time_end - time_begin`. -/
def MeetingTime.length_seconds (mt : MeetingTime) : Nat :=
  timedeltaSeconds (MeetingTime.time_difference mt.time_begin mt.time_end)

/-- `set(day_list1) & set(day_list2)` is non-empty: the two day lists share
at least one weekday token. -/
def daysShared (day_list1 day_list2 : List String) : Bool :=
  day_list1.any (fun d => day_list2.contains d)

/-- `MeetingTime.conflicts_with` (umich.py): the two meeting times must
share a day; then the two (begin, end) pairs are sorted by begin time
(Python `sorted` is stable, so `self` comes first on a tie) and the times
conflict iff the later begin is strictly before the earlier end. -/
def MeetingTime.conflicts_with (self other : MeetingTime) : Bool :=
  if !(daysShared self.day_list other.day_list) then
    false
  else
    -- times = sorted([(self.begin, self.end), (other.begin, other.end)])
    let times :=
      if other.time_begin < self.time_begin then
        ((other.time_begin, other.time_end), (self.time_begin, self.time_end))
      else
        ((self.time_begin, self.time_end), (other.time_begin, other.time_end))
    -- return times[1][0] < times[0][1]
    decide (times.2.1 < times.1.2)

/-- The end time of the interval that starts earlier (ties resolved to `a`,
matching the stable sort in the source). -/
def earlierEnd (a b : MeetingTime) : Nat :=
  if b.time_begin < a.time_begin then b.time_end else a.time_end

/-- A single section of a course (umich.py `Section`), carrying the fields
the core reads from the catalog record: display name, subject code, catalog
number, section number, section type, the raw `Meeting.Location` string, and
its meeting time. -/
structure Section where
  name : String
  subject : String
  number : String
  section_number : String
  section_type : String
  location : String
  meeting_time : MeetingTime
deriving DecidableEq

/-- `Section.code`: `"{subject} {number}"`. -/
def Section.code (s : Section) : String :=
  s.subject ++ " " ++ s.number

/-- `Section.section`: the `"{type} {number}"` label (named `section_label`
here because `section` is a Lean keyword). -/
def Section.section_label (s : Section) : String :=
  s.section_type ++ " " ++ s.section_number

/-- A building returned by the building API (umich.py `Building`): its
`Abbreviation`, `Name` and `Campus` fields. -/
structure Building where
  abbreviation : String
  name : String
  campus_name : String
deriving DecidableEq

/-- The building API data (`/Campuses` and `/Buildings` responses): the list
of campuses and the list of all buildings.  The source requests the same
full `/Buildings` list once per campus. -/
structure BuildingAPI where
  campuses : List String
  buildings : List Building
deriving DecidableEq

/-- `EXTRA_ABBREVIATIONS` (umich.py): manual aliases from class-location
token to building abbreviation. -/
def EXTRA_ABBREVIATIONS : List (String × String) :=
  [("GFL", "GFLAB"), ("BEYSTER", "BYSTR"), ("STAMPS", "STAMP")]

/-- Errors raised by `Building.from_section`:
`indexError` models `location.split()[-1]` on a whitespace-only location;
`buildingNotFound` models the final `raise RuntimeError(...)` (the payload
is the looked-up abbreviation; the formatted message is not modelled). -/
inductive BuildingError where
  | indexError : BuildingError
  | buildingNotFound : String → BuildingError
deriving DecidableEq

/-- Helper for `pySplit`: split a character list on space runs, carrying
the (reversed) current token. -/
def pySplitAux : List Char → List Char → List String
  | [], acc => if acc.isEmpty then [] else [String.mk acc.reverse]
  | c :: cs, acc =>
    if c = ' ' then
      if acc.isEmpty then pySplitAux cs []
      else String.mk acc.reverse :: pySplitAux cs []
    else pySplitAux cs (c :: acc)

/-- Python `location.split()`: split on whitespace runs, dropping empty
pieces (catalog locations are space-separated, so splitting on the space
character suffices). -/
def pySplit (location : String) : List String :=
  pySplitAux location.toList []

/-- Whether `pre` is a leading run of `l`. -/
def leadingRun : List Char → List Char → Bool
  | [], _ => true
  | _ :: _, [] => false
  | p :: ps, c :: cs => p == c && leadingRun ps cs

/-- Whether `pat` occurs as a contiguous run of `l`. -/
def containsRun (pat : List Char) : List Char → Bool
  | [] => pat.isEmpty
  | c :: cs => leadingRun pat (c :: cs) || containsRun pat cs

/-- Python `"UMMA" in location` (substring containment). -/
def containsUMMA (location : String) : Bool :=
  containsRun "UMMA".toList location.toList

/-- The inner-loop test of `Building.from_section`: building `j` matches
abbreviation `target` directly or through `EXTRA_ABBREVIATIONS`. -/
def matchesAbbreviation (target : String) (j : Building) : Bool :=
  j.abbreviation == target ||
    (match EXTRA_ABBREVIATIONS.find? (fun p => p.1 == target) with
     | some p => j.abbreviation == p.2
     | none => false)

/-- `Building.from_section` (umich.py): take the last whitespace-separated
token of the section's location; `"ARR"` means to-be-arranged (`None`); if
the location contains `"UMMA"` the token is replaced by `"UMMA"`; `"BUS"`
also yields `None`; otherwise, for each campus the full building list is
scanned and the first building matching the token (directly or via the
alias table) is returned; if no building matches (or the campus list is
empty, so the scan never runs), a `RuntimeError` is raised. -/
def Building.from_section (api : BuildingAPI) (s : Section) :
    Except BuildingError (Option Building) :=
  match (pySplit s.location).getLast? with
  | none => .error .indexError
  | some tok =>
    if tok == "ARR" then .ok none
    else
      let tok := if containsUMMA s.location then "UMMA" else tok
      if tok == "BUS" then .ok none
      else
        match api.campuses with
        | [] => .error (.buildingNotFound tok)
        | _ :: _ =>
          match api.buildings.find? (matchesAbbreviation tok) with
          | some j => .ok (some j)
          | none => .error (.buildingNotFound tok)

/-- `itertools.combinations(l, 2)`: all unordered pairs, in order of the
first index, then the second. -/
def combinations2 {α : Type} : List α → List (α × α)
  | [] => []
  | x :: xs => xs.map (fun y => (x, y)) ++ combinations2 xs

/-- `itertools.product(*lists)`: the Cartesian product in lexicographic
order, the last list varying fastest. -/
def product {α : Type} : List (List α) → List (List α)
  | [] => [[]]
  | l :: ls => l.flatMap (fun x => (product ls).map (fun t => x :: t))

/-- Short-circuiting `all` over an `Except`-valued predicate: models a
Python `for` loop that `return False`s on the first failing element (later
elements are not evaluated, so their exceptions are not raised) and returns
`True` after the loop. -/
def allExc {ε α : Type} (f : α → Except ε Bool) : List α → Except ε Bool
  | [] => .ok true
  | a :: as =>
    match f a with
    | .error e => .error e
    | .ok false => .ok false
    | .ok true => allExc f as

/-- Short-circuiting filter over an `Except`-valued predicate: models a
Python list comprehension whose condition may raise. -/
def filterExc {ε α : Type} (f : α → Except ε Bool) : List α → Except ε (List α)
  | [] => .ok []
  | a :: as =>
    match f a with
    | .error e => .error e
    | .ok true =>
      match filterExc f as with
      | .error e => .error e
      | .ok rest => .ok (a :: rest)
    | .ok false => filterExc f as

/-- `times_dont_overlap` (main.py): no unordered pair of sections of the
candidate has conflicting meeting times. -/
def times_dont_overlap (candidate : List Section) : Bool :=
  (combinations2 candidate).all
    (fun p => !(p.1.meeting_time.conflicts_with p.2.meeting_time))

/-- The body of the pair loop in `buildings_arent_too_far_away` (main.py):
resolve both buildings (either resolution may raise); a pair with an
unassigned (`None`) building is skipped; same campus is skipped; disjoint
day sets are skipped; otherwise the pair is ordered by begin time (stable:
`s1` first on a tie) and the gap from the earlier end to the later begin
must be at least 30 minutes. -/
def pairFarEnough (api : BuildingAPI) (s1 s2 : Section) :
    Except BuildingError Bool :=
  match Building.from_section api s1 with
  | .error e => .error e
  | .ok b1 =>
    match Building.from_section api s2 with
    | .error e => .error e
    | .ok b2 =>
      match b1, b2 with
      | some b1, some b2 =>
        if b1.campus_name == b2.campus_name then .ok true
        else if !(daysShared s1.meeting_time.day_list s2.meeting_time.day_list)
        then .ok true
        else if s2.meeting_time.time_begin < s1.meeting_time.time_begin then
          .ok (decide (¬ MeetingTime.time_difference
            s2.meeting_time.time_end s1.meeting_time.time_begin < 30))
        else
          .ok (decide (¬ MeetingTime.time_difference
            s1.meeting_time.time_end s2.meeting_time.time_begin < 30))
      | _, _ => .ok true

/-- `buildings_arent_too_far_away` (main.py): every unordered pair of the
candidate passes `pairFarEnough`; the loop returns `False` on the first
failing pair and `True` after the loop. -/
def buildings_arent_too_far_away (api : BuildingAPI)
    (candidate : List Section) : Except BuildingError Bool :=
  allExc (fun p => pairFarEnough api p.1 p.2) (combinations2 candidate)

/-- A section group (umich.py `SectionGroup`) as stored: its section list
and its set of section types.  The source stores the types as a Python
`set` whose iteration order is unspecified; it is modelled as a list of the
distinct types in some order, free in the theorems below. -/
structure SectionGroup where
  section_list : List Section
  section_types : List String
deriving DecidableEq

/-- Errors raised by the `assert` statements in `SectionGroup.__init__`. -/
inductive GroupError where
  | emptySectionList : GroupError
  | mismatchedNames : GroupError
deriving DecidableEq

/-- `SectionGroup.__init__` (umich.py): asserts the section list is
non-empty and that all sections share the first section's name, then stores
the set of section types (modelled in first-occurrence order; the third
assert, that the type set is non-empty, cannot fail once the list is
non-empty). -/
def SectionGroup.init : List Section → Except GroupError SectionGroup
  | [] => .error .emptySectionList
  | s :: rest =>
    if (s :: rest).all (fun i => i.name == s.name) then
      .ok ⟨s :: rest, ((s :: rest).map (fun i => i.section_type)).dedup⟩
    else .error .mismatchedNames

/-- `ClassPicker._get_section_choices` (main.py): for each section group,
for each of its section types, the list of its sections of that type; one
section from each resulting list must be chosen. -/
def sectionChoices (section_groups : List SectionGroup) : List (List Section) :=
  section_groups.flatMap (fun g =>
    g.section_types.map (fun t =>
      g.section_list.filter (fun i => i.section_type == t)))

/-- The criteria registered beyond the two built-in predicates: the source
registers none (there is no `add_criterion` mechanism in the code), so the
registry is empty. -/
def registered_criteria : List (List Section → Bool) := []

/-- The filter condition of the list comprehension in `pick_sections`: the
three `if` clauses evaluated left to right with short-circuiting (the
cross-campus predicate appears twice in the source). -/
def keepCandidate (api : BuildingAPI) (candidate : List Section) :
    Except BuildingError Bool :=
  if times_dont_overlap candidate then
    match buildings_arent_too_far_away api candidate with
    | .error e => .error e
    | .ok false => .ok false
    | .ok true => buildings_arent_too_far_away api candidate
  else .ok false

/-- `ClassPicker.pick_sections` (main.py), starting from the section groups
(the source first fetches them from the API by name): the Cartesian product
of the section choices, filtered by the built-in predicates. -/
def pick_sections (api : BuildingAPI) (section_groups : List SectionGroup) :
    Except BuildingError (List (List Section)) :=
  filterExc (keepCandidate api) (product (sectionChoices section_groups))

/-- Errors escaping the whole search pipeline: a failed `assert` in
`SectionGroup.__init__`, or a `RuntimeError`/`IndexError` from building
resolution. -/
inductive SearchError where
  | groupError : GroupError → SearchError
  | buildingError : BuildingError → SearchError
deriving DecidableEq

/-- Map the error of an `Except`. -/
def mapErr {ε ε' α : Type} (f : ε → ε') : Except ε α → Except ε' α
  | .error e => .error (f e)
  | .ok a => .ok a

/-- The search pipeline from raw per-course section lists: construct each
`SectionGroup` (running the `__init__` asserts), then run `pick_sections`. -/
def pick_sections_pipeline (api : BuildingAPI)
    (courses : List (List Section)) :
    Except SearchError (List (List Section)) :=
  match mapErr SearchError.groupError (courses.mapM SectionGroup.init) with
  | .error e => .error e
  | .ok groups => mapErr SearchError.buildingError (pick_sections api groups)

/-- The single application of the cross-campus predicate: the filter
condition of `pick_sections` with the duplicated third `if` clause removed
(the spec's corrected form, compared against `keepCandidate` in C7). -/
def keepCandidateOnce (api : BuildingAPI) (candidate : List Section) :
    Except BuildingError Bool :=
  if times_dont_overlap candidate then
    buildings_arent_too_far_away api candidate
  else .ok false

/-- `pick_sections` with the cross-campus predicate applied once. -/
def pick_sections_once (api : BuildingAPI)
    (section_groups : List SectionGroup) :
    Except BuildingError (List (List Section)) :=
  filterExc (keepCandidateOnce api) (product (sectionChoices section_groups))

/-- The acceptance condition for one unordered pair of sections as the spec
states it (claim C4): at least one building unresolved, or same campus, or
no shared weekday, or (ordering the pair by begin time) a gap of at least 30
minutes from the earlier end to the later begin. -/
def pairAcceptable (api : BuildingAPI) (s1 s2 : Section) : Prop :=
  (¬ ∃ b, Building.from_section api s1 = .ok (some b)) ∨
  (¬ ∃ b, Building.from_section api s2 = .ok (some b)) ∨
  (∃ b1 b2, Building.from_section api s1 = .ok (some b1) ∧
    Building.from_section api s2 = .ok (some b2) ∧
    b1.campus_name = b2.campus_name) ∨
  (¬ ∃ d, d ∈ s1.meeting_time.day_list ∧ d ∈ s2.meeting_time.day_list) ∨
  (if s2.meeting_time.time_begin < s1.meeting_time.time_begin then
    (30 : Int) ≤ MeetingTime.time_difference
      s2.meeting_time.time_end s1.meeting_time.time_begin
  else
    (30 : Int) ≤ MeetingTime.time_difference
      s1.meeting_time.time_end s2.meeting_time.time_begin)

/-! ### The schedule canvas (main.py `ScheduleCanvas`)

The Python canvas is a height x width list of single-character strings; it
is modelled as a total function from (row, column) to the character there.
Out-of-bounds writes, which raise `IndexError` in Python, are not modelled:
the claims below concern the characters of drawn cells. -/

/-- A (row, column) cell address. -/
abbrev Point := Nat × Nat

/-- The canvas contents. -/
abbrev Canvas := Point → Char

/-- `ScheduleCanvas.DAYS`. -/
def DAYS : List String := ["Mo", "Tu", "We", "Th", "Fr"]

/-- `ScheduleCanvas.RESOLUTION`: block time, in seconds (30 minutes). -/
def RESOLUTION : Nat := 30 * 60

/-- `ScheduleCanvas.BLOCK_HEIGHT`: block height, in rows. -/
def BLOCK_HEIGHT : Nat := 4

/-- `ScheduleCanvas.NUM_BLOCKS`: blocks in the schedule frame. -/
def NUM_BLOCKS : Nat := 24

/-- `ScheduleCanvas.START_TIME`: schedule start, in seconds (8 AM). -/
def START_TIME : Nat := 8 * 60 * 60

/-- `ScheduleCanvas.BLOCK_PADDING`: padding in the block on either side. -/
def BLOCK_PADDING : Nat := 2

/-- `self[point] = value`: functional update of one cell. -/
def setCell (cv : Canvas) (p : Point) (ch : Char) : Canvas :=
  fun q => if q = p then ch else cv q

/-- The `line_characters` dictionary of `_draw_line`, keyed by the step
delta (the `(0, 0)` key cannot be looked up: the source asserts the delta is
non-zero, and for distinct sorted endpoints it always is). -/
def lineChar (d_row d_col : Nat) : Char :=
  if d_row = 1 ∧ d_col = 0 then '|'
  else if d_row = 0 ∧ d_col = 1 then '-'
  else '\\'

/-- Python tuple comparison on (row, column) points: lexicographic. -/
def pointLe (p q : Point) : Bool :=
  decide (p.1 < q.1 ∨ (p.1 = q.1 ∧ p.2 ≤ q.2))

/-- The `while current_point != end_point` loop of `_draw_line`: take `n`
steps of delta `(d_row, d_col)` from `cur`, writing the line character at
each visited cell unless that cell already holds `'+'`. -/
def paintSteps (cv : Canvas) (cur : Point) (d_row d_col : Nat) :
    Nat → Canvas
  | 0 => cv
  | Nat.succ m =>
    let next : Point := (cur.1 + d_row, cur.2 + d_col)
    let cv1 := if cv next = '+' then cv else setCell cv next (lineChar d_row d_col)
    paintSteps cv1 next d_row d_col m

/-- `ScheduleCanvas._draw_line` (main.py): sort the two endpoints
(lexicographically, via Python tuple `sorted`), walk from the first to the
second writing `'|'`, `'-'` or `'\'` at cells not already holding `'+'`,
then write `'+'` at both endpoints.  The source walks until the current
point equals the endpoint; for axis-aligned or exactly diagonal endpoints
that takes `max` of the coordinate differences steps (for any other
endpoints the source loop never terminates; such calls never occur, since
`_draw_box` draws only axis-aligned lines). -/
def draw_line (cv : Canvas) (start_point end_point : Point) : Canvas :=
  let s := if pointLe start_point end_point then start_point else end_point
  let e := if pointLe start_point end_point then end_point else start_point
  let d_row := if s.1 < e.1 then 1 else 0
  let d_col := if s.2 < e.2 then 1 else 0
  let n := max (e.1 - s.1) (e.2 - s.2)
  let cv1 := paintSteps cv s d_row d_col n
  setCell (setCell cv1 s '+') e '+'

/-- `ScheduleCanvas._draw_box` (main.py): four lines between the corners. -/
def draw_box (cv : Canvas) (top_left bottom_right : Point) : Canvas :=
  let top_right : Point := (top_left.1, bottom_right.2)
  let bottom_left : Point := (bottom_right.1, top_left.2)
  let cv1 := draw_line cv top_left top_right
  let cv2 := draw_line cv1 top_left bottom_left
  let cv3 := draw_line cv2 bottom_left bottom_right
  draw_line cv3 top_right bottom_right

/-- `ScheduleCanvas._draw_string` (main.py): write the characters of the
string left to right starting at `p` (the source recurses on the string
tail; it raises on an empty string, which is modelled as a no-op since the
drawn labels are never empty). -/
def draw_string (cv : Canvas) (p : Point) : List Char → Canvas
  | [] => cv
  | ch :: rest => draw_string (setCell cv p ch) (p.1, p.2 + 1) rest

/-- A box- or line-drawing operation on the canvas. -/
inductive DrawOp where
  | line : Point → Point → DrawOp
  | box : Point → Point → DrawOp

/-- Run one drawing operation. -/
def applyOp (cv : Canvas) : DrawOp → Canvas
  | .line p q => draw_line cv p q
  | .box p q => draw_box cv p q

/-- Run a sequence of drawing operations. -/
def applyOps (cv : Canvas) (ops : List DrawOp) : Canvas :=
  ops.foldl applyOp cv

/-- `seconds_to_blocks` (inner helper of `add_section`): floor-divide by the
block resolution, then scale to rows. -/
def seconds_to_blocks (seconds : Nat) : Nat :=
  seconds / RESOLUTION * BLOCK_HEIGHT

/-- The row of the top edge of a section's box: `seconds_to_blocks` of the
`.seconds` of `time_difference(gmtime(START_TIME), time_begin)`
(`gmtime(START_TIME)` is 8:00, i.e. 480 minutes). -/
def section_top_row (mt : MeetingTime) : Nat :=
  seconds_to_blocks (timedeltaSeconds
    (MeetingTime.time_difference 480 mt.time_begin))

/-- The (top_left, bottom_right) corners `add_section` passes to
`_draw_box` for one meeting day: top row from the start time, column from
the day's index (Python `list.index`, which raises for a day outside
`DAYS`, is modelled by `List.indexOf`, whose out-of-list value `5` never
arises for catalog day tokens); the bottom right corner adds the duration in
blocks and the column width. -/
def section_box (column_width : Nat) (mt : MeetingTime) (day : String) :
    Point × Point :=
  let top_left : Point := (section_top_row mt, column_width * DAYS.indexOf day)
  let height := seconds_to_blocks mt.length_seconds
  (top_left, (top_left.1 + height, top_left.2 + column_width))

/-- `ScheduleCanvas.add_section` (main.py): for each meeting day, draw the
section's box and its two centered label lines (course code, then section
label).  The Python `row - 1` is on `int`; for boxes on the schedule grid
`row ≥ 1`, so `Nat` subtraction agrees. -/
def add_section (column_width : Nat) (cv : Canvas) (s : Section) : Canvas :=
  s.meeting_time.day_list.foldl (fun cv day =>
    let corners := section_box column_width s.meeting_time day
    let cv1 := draw_box cv corners.1 corners.2
    let row := (corners.1.1 + corners.2.1) / 2
    let col := corners.1.2 + BLOCK_PADDING
    let cv2 := draw_string cv1 (row - 1, col) s.code.toList
    draw_string cv2 (row, col) s.section_label.toList) cv

/-! ### Concrete inputs used by counterexamples and witnesses -/

/-- Monday 9:00-10:00. -/
def mtMo9 : MeetingTime := ⟨["Mo"], 540, 600⟩

/-- Monday 10:00-11:00. -/
def mtMo10 : MeetingTime := ⟨["Mo"], 600, 660⟩

/-- A lecture section with location to be arranged. -/
def secLEC : Section :=
  ⟨"Prog and Data Struct", "EECS", "281", "001", "LEC", "ARR", mtMo9⟩

/-- A discussion section with location to be arranged. -/
def secDIS : Section :=
  ⟨"Prog and Data Struct", "EECS", "281", "011", "DIS", "ARR", mtMo10⟩

/-- A section whose location token is in no building table. -/
def secZZZ : Section :=
  ⟨"Mystery Course", "EECS", "281", "002", "LEC", "ZZZ", mtMo9⟩

/-- A building API with one campus and an empty building table. -/
def api0 : BuildingAPI := ⟨["Ann Arbor"], []⟩

/-- A section group with a single lecture section. -/
def group0 : SectionGroup := ⟨[secLEC], ["LEC"]⟩

/-- A section group record whose `"LAB"` slot has no sections (such a
record cannot come out of `SectionGroup.init`; it feeds the amended C6). -/
def group1 : SectionGroup := ⟨[secLEC], ["LEC", "LAB"]⟩

/-- A canvas holding a single corner character. -/
def canvasWithCorner : Canvas := setCell (fun _ => ' ') (0, 0) '+'

/-! ### Helper lemmas -/

theorem daysShared_iff (day_list1 day_list2 : List String) :
    daysShared day_list1 day_list2 = true ↔
      ∃ d, d ∈ day_list1 ∧ d ∈ day_list2 := by
  simp [daysShared, List.any_eq_true]

/-- C1: `conflicts_with a b` is true iff `a` and `b` share at least one
weekday token and, after ordering the two intervals by start time, the later
interval's start (`max` of the begins) is strictly before the earlier
interval's end.  In particular (for meeting times whose begin precedes their
end), two meeting times that exactly abut do not conflict, and two meeting
times sharing no weekday never conflict. -/
theorem conflicts_with_spec (a b : MeetingTime)
    (ha : a.time_begin < a.time_end) (hb : b.time_begin < b.time_end) :
    (a.conflicts_with b = true ↔
      (∃ d, d ∈ a.day_list ∧ d ∈ b.day_list) ∧
        max a.time_begin b.time_begin < earlierEnd a b) ∧
    (a.time_end = b.time_begin ∨ b.time_end = a.time_begin →
      a.conflicts_with b = false) ∧
    (¬ (∃ d, d ∈ a.day_list ∧ d ∈ b.day_list) →
      a.conflicts_with b = false) := by
  have hdays := daysShared_iff a.day_list b.day_list
  refine ⟨?_, ?_, ?_⟩
  · constructor
    · intro h
      unfold MeetingTime.conflicts_with at h
      by_cases hd : daysShared a.day_list b.day_list
      · refine ⟨hdays.mp hd, ?_⟩
        simp only [hd, Bool.not_true, Bool.false_eq_true, if_false] at h
        unfold earlierEnd
        split at h <;> rename_i hcmp <;> simp only [decide_eq_true_eq] at h <;>
          simp [hcmp] <;> omega
      · simp [hd] at h
    · rintro ⟨hsh, hlt⟩
      have hd : daysShared a.day_list b.day_list = true := hdays.mpr hsh
      unfold MeetingTime.conflicts_with
      simp only [hd, Bool.not_true, Bool.false_eq_true, if_false]
      unfold earlierEnd at hlt
      split <;> rename_i hcmp <;> simp only [decide_eq_true_eq] <;>
        simp [hcmp] at hlt <;> omega
  · intro habut
    unfold MeetingTime.conflicts_with
    by_cases hd : daysShared a.day_list b.day_list
    · simp only [hd, Bool.not_true, Bool.false_eq_true, if_false]
      split <;> rename_i hcmp <;> simp only [decide_eq_false_iff_not] <;> omega
    · simp [hd]
  · intro hnone
    have hd : daysShared a.day_list b.day_list = false := by
      cases h : daysShared a.day_list b.day_list
      · rfl
      · exact absurd (hdays.mp h) hnone
    unfold MeetingTime.conflicts_with
    simp [hd]

/-- Witness for `conflicts_with_spec` at concrete meeting times
MoWe 10:00-11:00 and We 11:00-12:00 (they abut and do not conflict). -/
theorem conflicts_with_spec_witness :
    ((MeetingTime.mk ["Mo", "We"] 600 660).conflicts_with
        (MeetingTime.mk ["We"] 660 720) = true ↔
      (∃ d, d ∈ ["Mo", "We"] ∧ d ∈ ["We"]) ∧
        max 600 660 <
          earlierEnd (MeetingTime.mk ["Mo", "We"] 600 660)
            (MeetingTime.mk ["We"] 660 720)) ∧
    ((660 : Nat) = 660 ∨ (720 : Nat) = 600 →
      (MeetingTime.mk ["Mo", "We"] 600 660).conflicts_with
        (MeetingTime.mk ["We"] 660 720) = false) ∧
    (¬ (∃ d, d ∈ ["Mo", "We"] ∧ d ∈ ["We"]) →
      (MeetingTime.mk ["Mo", "We"] 600 660).conflicts_with
        (MeetingTime.mk ["We"] 660 720) = false) :=
  conflicts_with_spec (MeetingTime.mk ["Mo", "We"] 600 660)
    (MeetingTime.mk ["We"] 660 720) (by decide) (by decide)


theorem filterExc_ok {ε α : Type} [DecidableEq ε] (f : α → Except ε Bool) :
    ∀ (l : List α) (res : List α), filterExc f l = .ok res →
      res = l.filter (fun a => decide (f a = .ok true)) := by
  intro l
  induction l with
  | nil =>
    intro res h
    simp only [filterExc] at h
    cases h
    rfl
  | cons a as ih =>
    intro res h
    simp only [filterExc] at h
    cases hfa : f a with
    | error e => rw [hfa] at h; cases h
    | ok b =>
      rw [hfa] at h
      cases b with
      | true =>
        cases hrec : filterExc f as with
        | error e => rw [hrec] at h; cases h
        | ok rest =>
          rw [hrec] at h
          cases h
          simp [List.filter_cons, hfa, ih rest hrec]
      | false =>
        simp [List.filter_cons, hfa, ih res h]

theorem filterExc_congr {ε α : Type} (f g : α → Except ε Bool)
    (hfg : ∀ a, f a = g a) :
    ∀ l : List α, filterExc f l = filterExc g l := by
  intro l
  induction l with
  | nil => rfl
  | cons a as ih => simp only [filterExc, hfg a, ih]

theorem allExc_ok_true {ε α : Type} (f : α → Except ε Bool) :
    ∀ l : List α, allExc f l = .ok true → ∀ a ∈ l, f a = .ok true := by
  intro l
  induction l with
  | nil => intro _ a ha; cases ha
  | cons a as ih =>
    intro h b hb
    simp only [allExc] at h
    cases hfa : f a with
    | error e => rw [hfa] at h; cases h
    | ok v =>
      rw [hfa] at h
      cases v with
      | false => cases h
      | true =>
        cases hb with
        | head => exact hfa
        | tail _ hb => exact ih h b hb

theorem allExc_ok_char {ε α : Type} (f : α → Except ε Bool) (P : α → Prop)
    (hT : ∀ a, f a = .ok true → P a) (hF : ∀ a, f a = .ok false → ¬ P a) :
    ∀ (l : List α) (r : Bool), allExc f l = .ok r →
      (r = true ↔ ∀ a ∈ l, P a) := by
  intro l
  induction l with
  | nil =>
    intro r h
    simp only [allExc] at h
    cases h
    simp
  | cons a as ih =>
    intro r h
    simp only [allExc] at h
    cases hfa : f a with
    | error e => rw [hfa] at h; cases h
    | ok v =>
      rw [hfa] at h
      cases v with
      | false =>
        cases h
        simp only [Bool.false_eq_true, false_iff]
        intro hall
        exact hF a hfa (hall a (List.mem_cons_self a as))
      | true =>
        rw [ih r h]
        constructor
        · intro hall b hb
          cases hb with
          | head => exact hT a hfa
          | tail _ hb => exact hall b hb
        · intro hall b hb
          exact hall b (List.mem_cons_of_mem a hb)

theorem mem_product {α : Type} :
    ∀ (ls : List (List α)) (c : List α),
      c ∈ product ls ↔ List.Forall₂ (fun s choices => s ∈ choices) c ls := by
  intro ls
  induction ls with
  | nil =>
    intro c
    simp only [product, List.mem_singleton]
    constructor
    · rintro rfl; exact List.Forall₂.nil
    · intro h; cases h; rfl
  | cons l ls ih =>
    intro c
    simp only [product, List.mem_flatMap, List.mem_map]
    constructor
    · rintro ⟨x, hx, t, ht, rfl⟩
      exact List.Forall₂.cons hx ((ih t).mp ht)
    · intro h
      cases h with
      | cons hx ht => exact ⟨_, hx, _, (ih _).mpr ht, rfl⟩

theorem product_eq_nil {α : Type} :
    ∀ ls : List (List α), ([] : List α) ∈ ls → product ls = [] := by
  intro ls
  induction ls with
  | nil => intro h; cases h
  | cons l ls ih =>
    intro h
    cases h with
    | head => rfl
    | tail _ h => simp [product, ih h]

theorem sectionChoices_length (groups : List SectionGroup) :
    (sectionChoices groups).length =
      (groups.map (fun g => g.section_types.length)).sum := by
  induction groups with
  | nil => rfl
  | cons g gs ih =>
    simp only [sectionChoices, List.flatMap_cons, List.length_append,
      List.length_map, List.map_cons, List.sum_cons]
    rw [← ih]
    rfl

theorem keepCandidate_eq_once (api : BuildingAPI) (c : List Section) :
    keepCandidate api c = keepCandidateOnce api c := by
  unfold keepCandidate keepCandidateOnce
  by_cases h : times_dont_overlap c = true
  · rw [if_pos h, if_pos h]
    cases hb : buildings_arent_too_far_away api c with
    | error e => rfl
    | ok v => cases v <;> rfl
  · rw [if_neg h, if_neg h]

theorem keepCandidate_ok_true (api : BuildingAPI) (c : List Section) :
    decide (keepCandidate api c = Except.ok true) =
      (times_dont_overlap c &&
        decide (buildings_arent_too_far_away api c = Except.ok true)) := by
  unfold keepCandidate
  by_cases h : times_dont_overlap c = true
  · rw [if_pos h, h, Bool.true_and]
    cases hb : buildings_arent_too_far_away api c with
    | error e => rfl
    | ok v => cases v <;> rfl
  · rw [if_neg h]
    have h0 : times_dont_overlap c = false := Bool.eq_false_iff.mpr h
    rw [h0, Bool.false_and]
    simp

theorem keepCandidate_ok_true_elim (api : BuildingAPI) (c : List Section)
    (h : keepCandidate api c = .ok true) :
    times_dont_overlap c = true ∧
      buildings_arent_too_far_away api c = .ok true := by
  unfold keepCandidate at h
  by_cases ht : times_dont_overlap c = true
  · rw [if_pos ht] at h
    refine ⟨ht, ?_⟩
    cases hb : buildings_arent_too_far_away api c with
    | error e => rw [hb] at h; cases h
    | ok v =>
      rw [hb] at h
      cases v with
      | false => cases h
      | true => rfl
  · rw [if_neg ht] at h
    cases h

theorem times_dont_overlap_iff (c : List Section) :
    times_dont_overlap c = true ↔
      ∀ p ∈ combinations2 c,
        p.1.meeting_time.conflicts_with p.2.meeting_time = false := by
  simp [times_dont_overlap, List.all_eq_true]

/-- C2: when `pick_sections` returns normally, its result is exactly the
filter of the lexicographic Cartesian product (last choice-list varying
fastest) of all section choice-lists of all courses by the two built-in
predicates: it contains exactly the passing candidates, in product order. -/
theorem pick_sections_enumerates_product (api : BuildingAPI)
    (groups : List SectionGroup) (res : List (List Section))
    (h : pick_sections api groups = .ok res) :
    res = (product (sectionChoices groups)).filter
      (fun c => times_dont_overlap c &&
        decide (buildings_arent_too_far_away api c = Except.ok true)) := by
  rw [filterExc_ok (keepCandidate api) _ _ h]
  exact List.filter_congr (fun c _ => keepCandidate_ok_true api c)

/-- Witness for `pick_sections_enumerates_product` on a one-course,
one-section input. -/
theorem pick_sections_enumerates_product_witness :
    [[secLEC]] = (product (sectionChoices [group0])).filter
      (fun c => times_dont_overlap c &&
        decide (buildings_arent_too_far_away api0 c = Except.ok true)) :=
  pick_sections_enumerates_product api0 [group0] [[secLEC]] rfl

/-- C3: every candidate returned by `pick_sections` passes the no-overlap
predicate, the cross-campus predicate and (vacuously: the source registers
none) every registered criterion, and every unordered pair of its sections
is conflict-free and far enough apart; re-running the predicates on a
returned candidate succeeds (no exception) with `true`. -/
theorem pick_sections_postcondition (api : BuildingAPI)
    (groups : List SectionGroup) (res : List (List Section))
    (h : pick_sections api groups = .ok res) :
    ∀ c ∈ res,
      times_dont_overlap c = true ∧
      buildings_arent_too_far_away api c = .ok true ∧
      (∀ p ∈ combinations2 c,
        p.1.meeting_time.conflicts_with p.2.meeting_time = false ∧
        pairFarEnough api p.1 p.2 = .ok true) ∧
      (∀ crit ∈ registered_criteria, crit c = true) := by
  intro c hc
  rw [filterExc_ok (keepCandidate api) _ _ h] at hc
  have hcond := List.of_mem_filter hc
  have hkeep : keepCandidate api c = .ok true := of_decide_eq_true hcond
  obtain ⟨ht, hb⟩ := keepCandidate_ok_true_elim api c hkeep
  refine ⟨ht, hb, ?_, ?_⟩
  · intro p hp
    refine ⟨(times_dont_overlap_iff c).mp ht p hp, ?_⟩
    exact allExc_ok_true _ _ hb p hp
  · intro crit hcrit
    simp [registered_criteria] at hcrit

/-- Witness for `pick_sections_postcondition` on a one-course,
one-section input. -/
theorem pick_sections_postcondition_witness :
    times_dont_overlap [secLEC] = true ∧
      buildings_arent_too_far_away api0 [secLEC] = .ok true ∧
      (∀ p ∈ combinations2 [secLEC],
        p.1.meeting_time.conflicts_with p.2.meeting_time = false ∧
        pairFarEnough api0 p.1 p.2 = .ok true) ∧
      (∀ crit ∈ registered_criteria, crit [secLEC] = true) :=
  pick_sections_postcondition api0 [group0] [[secLEC]] rfl [secLEC]
    (List.mem_singleton.mpr rfl)

/-- C7: the duplicated application of the cross-campus predicate in the
filter chain of `pick_sections` is redundant: on every input the result
(including a raised exception) equals that of the variant applying the
predicate once. -/
theorem duplicated_cross_campus_check_redundant (api : BuildingAPI)
    (groups : List SectionGroup) :
    pick_sections api groups = pick_sections_once api groups := by
  unfold pick_sections pick_sections_once
  exact filterExc_congr _ _ (keepCandidate_eq_once api) _

/-- C8: every candidate returned by `pick_sections` picks its sections
positionally from the per-(section group, section type) choice lists — one
section from each list, in order — so it has exactly one section per
(group, type) pair required by the course selection. -/
theorem candidate_one_section_per_slot (api : BuildingAPI)
    (groups : List SectionGroup) (res : List (List Section))
    (h : pick_sections api groups = .ok res) :
    ∀ c ∈ res,
      List.Forall₂ (fun s choices => s ∈ choices) c (sectionChoices groups) ∧
      c.length = (groups.map (fun g => g.section_types.length)).sum := by
  intro c hc
  rw [filterExc_ok (keepCandidate api) _ _ h] at hc
  have hcp : c ∈ product (sectionChoices groups) := List.mem_of_mem_filter hc
  have hf := (mem_product _ _).mp hcp
  refine ⟨hf, ?_⟩
  rw [List.Forall₂.length_eq hf]
  exact sectionChoices_length groups

/-- Witness for `candidate_one_section_per_slot` on a one-course,
one-section input. -/
theorem candidate_one_section_per_slot_witness :
    List.Forall₂ (fun s choices => s ∈ choices) [secLEC]
        (sectionChoices [group0]) ∧
      ([secLEC] : List Section).length =
        ([group0].map (fun g => g.section_types.length)).sum :=
  candidate_one_section_per_slot api0 [group0] [[secLEC]] rfl [secLEC]
    (List.mem_singleton.mpr rfl)

/-- C6 counterexample: a desired course with zero sections does not give an
empty result — `SectionGroup.__init__` fails its assertion, so the search
pipeline raises instead of returning the empty list. -/
theorem zero_sections_course_raises :
    pick_sections_pipeline api0 [[]] =
        .error (.groupError .emptySectionList) ∧
      pick_sections_pipeline api0 [[]] ≠ .ok [] := by
  exact ⟨rfl, by decide⟩

/-- C6 amended: a course with zero sections fails the constructor assertion
(see `zero_sections_course_raises`); but if `pick_sections` is handed
section groups in which some required (group, type) slot has an empty
choice-list, the Cartesian product is empty and it returns an empty list
without error. -/
theorem empty_choice_list_gives_empty_result (api : BuildingAPI)
    (groups : List SectionGroup)
    (h : ∃ g ∈ groups, ∃ t ∈ g.section_types,
        ∀ s ∈ g.section_list, ¬ s.section_type = t) :
    pick_sections api groups = .ok [] := by
  obtain ⟨g, hg, t, ht, hall⟩ := h
  have hmem : ([] : List Section) ∈ sectionChoices groups := by
    unfold sectionChoices
    rw [List.mem_flatMap]
    refine ⟨g, hg, ?_⟩
    rw [List.mem_map]
    refine ⟨t, ht, ?_⟩
    rw [List.filter_eq_nil_iff]
    intro s hs
    simpa using hall s hs
  rw [pick_sections, product_eq_nil _ hmem]
  rfl

/-- Witness for `empty_choice_list_gives_empty_result`: a group whose
`"LAB"` slot has no sections. -/
theorem empty_choice_list_gives_empty_result_witness :
    pick_sections api0 [group1] = .ok [] :=
  empty_choice_list_gives_empty_result api0 [group1] (by decide)

theorem pairFarEnough_true_acceptable (api : BuildingAPI) (s1 s2 : Section)
    (h : pairFarEnough api s1 s2 = .ok true) : pairAcceptable api s1 s2 := by
  unfold pairFarEnough at h
  cases h1 : Building.from_section api s1 with
  | error e => rw [h1] at h; cases h
  | ok b1 =>
    rw [h1] at h
    cases h2 : Building.from_section api s2 with
    | error e => rw [h2] at h; cases h
    | ok b2 =>
      rw [h2] at h
      match b1, b2 with
      | none, _ =>
        exact Or.inl (fun ⟨b, hb⟩ => by rw [h1] at hb; cases hb)
      | some b1, none =>
        exact Or.inr (Or.inl (fun ⟨b, hb⟩ => by rw [h2] at hb; cases hb))
      | some b1, some b2 =>
        simp only at h
        by_cases hcampus : b1.campus_name == b2.campus_name
        · exact Or.inr (Or.inr (Or.inl
            ⟨b1, b2, h1, h2, by exact eq_of_beq hcampus⟩))
        · rw [if_neg hcampus] at h
          by_cases hdays :
              daysShared s1.meeting_time.day_list s2.meeting_time.day_list
          · rw [if_neg (by simp [hdays])] at h
            refine Or.inr (Or.inr (Or.inr (Or.inr ?_)))
            split at h <;> rename_i hcmp
            · rw [if_pos hcmp]
              have := of_decide_eq_true (Except.ok.inj h)
              omega
            · rw [if_neg hcmp]
              have := of_decide_eq_true (Except.ok.inj h)
              omega
          · refine Or.inr (Or.inr (Or.inr (Or.inl ?_)))
            rw [← daysShared_iff]
            simp [hdays]

theorem pairFarEnough_false_not_acceptable (api : BuildingAPI)
    (s1 s2 : Section) (h : pairFarEnough api s1 s2 = .ok false) :
    ¬ pairAcceptable api s1 s2 := by
  unfold pairFarEnough at h
  cases h1 : Building.from_section api s1 with
  | error e => rw [h1] at h; cases h
  | ok b1 =>
    rw [h1] at h
    cases h2 : Building.from_section api s2 with
    | error e => rw [h2] at h; cases h
    | ok b2 =>
      rw [h2] at h
      match b1, b2 with
      | none, _ => simp only at h; cases h
      | some b1, none => simp only at h; cases h
      | some b1, some b2 =>
        simp only at h
        by_cases hcampus : b1.campus_name == b2.campus_name
        · rw [if_pos hcampus] at h; cases h
        · rw [if_neg hcampus] at h
          by_cases hdays :
              daysShared s1.meeting_time.day_list s2.meeting_time.day_list
          · rw [if_neg (by simp [hdays])] at h
            intro hacc
            rcases hacc with hu1 | hu2 | hsame | hnod | hgap
            · exact hu1 ⟨b1, h1⟩
            · exact hu2 ⟨b2, h2⟩
            · obtain ⟨b1x, b2x, hb1x, hb2x, hcx⟩ := hsame
              rw [h1] at hb1x
              rw [h2] at hb2x
              cases hb1x
              cases hb2x
              exact hcampus (by simpa using hcx)
            · exact hnod ((daysShared_iff _ _).mp hdays)
            · split at h <;> rename_i hcmp
              · rw [if_pos hcmp] at hgap
                have := of_decide_eq_false (Except.ok.inj h)
                omega
              · rw [if_neg hcmp] at hgap
                have := of_decide_eq_false (Except.ok.inj h)
                omega
          · rw [if_pos (by simp [Bool.eq_false_iff.mpr hdays])] at h
            cases h

/-- C4 counterexample: the spec counts an unmapped location as
"unresolved", to be assumed non-conflicting; but for a candidate whose
sections sit in a building found in no table, every pair is acceptable in
the spec's sense while the cross-campus predicate raises a `RuntimeError`
instead of accepting, so the claimed equivalence fails. -/
theorem cross_campus_claim_counterexample :
    ¬ ((buildings_arent_too_far_away api0 [secZZZ, secZZZ] = .ok true) ↔
      ∀ p ∈ combinations2 [secZZZ, secZZZ],
        pairAcceptable api0 p.1 p.2) := by
  intro hiff
  have hres : Building.from_section api0 secZZZ =
      .error (.buildingNotFound "ZZZ") := rfl
  have hR : ∀ p ∈ combinations2 [secZZZ, secZZZ],
      pairAcceptable api0 p.1 p.2 := by
    intro p hp
    have hp0 : p = (secZZZ, secZZZ) := by
      simpa [combinations2] using hp
    subst hp0
    exact Or.inl (fun ⟨b, hb⟩ => by rw [hres] at hb; cases hb)
  have hL := hiff.mpr hR
  have hev : buildings_arent_too_far_away api0 [secZZZ, secZZZ] =
      .error (.buildingNotFound "ZZZ") := rfl
  rw [hev] at hL
  cases hL

/-- C4 amended: when the cross-campus predicate returns without raising
(which requires every evaluated pair's buildings to resolve), it accepts
the candidate iff every unordered pair of sections either has a building
resolved to `None` (to be arranged), or is on one campus, or shares no
weekday, or has at least 30 minutes (exactly 30 passes) from the earlier
section's end to the later section's begin; a pair whose location is
unmapped makes the predicate raise rather than accept. -/
theorem cross_campus_accepts_iff (api : BuildingAPI)
    (candidate : List Section) (r : Bool)
    (h : buildings_arent_too_far_away api candidate = .ok r) :
    r = true ↔
      ∀ p ∈ combinations2 candidate, pairAcceptable api p.1 p.2 :=
  allExc_ok_char _ (fun p => pairAcceptable api p.1 p.2)
    (fun p hp => pairFarEnough_true_acceptable api p.1 p.2 hp)
    (fun p hp => pairFarEnough_false_not_acceptable api p.1 p.2 hp)
    (combinations2 candidate) r h

/-- Witness for `cross_campus_accepts_iff`: a two-section candidate whose
locations are both to be arranged is accepted. -/
theorem cross_campus_accepts_iff_witness :
    (true = true ↔
      ∀ p ∈ combinations2 [secLEC, secDIS], pairAcceptable api0 p.1 p.2) :=
  cross_campus_accepts_iff api0 [secLEC, secDIS] true rfl

/-- C5 counterexample: a section whose location token `"ZZZ"` is found in
no building table (and no alias) makes `Building.from_section` raise a
`RuntimeError`, not return the unknown result `None`. -/
theorem from_section_unmapped_raises :
    Building.from_section api0 secZZZ = .error (.buildingNotFound "ZZZ") ∧
      Building.from_section api0 secZZZ ≠ .ok none := by
  exact ⟨rfl, by decide⟩

/-- C5 amended: building resolution returns `None` (not an error) exactly
for the not-yet-assigned markers — a location whose last token is `"ARR"`,
or `"BUS"` when the location does not contain `"UMMA"` — while a location
missing from the building table (alias table included) raises, so predicate
evaluation during search can raise. -/
theorem from_section_arr_bus_none (api : BuildingAPI) (s : Section) :
    ((pySplit s.location).getLast? = some "ARR" →
      Building.from_section api s = .ok none) ∧
    ((pySplit s.location).getLast? = some "BUS" ∧
        containsUMMA s.location = false →
      Building.from_section api s = .ok none) := by
  constructor
  · intro h
    unfold Building.from_section
    rw [h]
    rfl
  · rintro ⟨h, humma⟩
    unfold Building.from_section
    rw [h]
    simp [humma]

/-- Witness for `from_section_arr_bus_none`: the to-be-arranged lecture
section resolves to `None`. -/
theorem from_section_arr_bus_none_witness :
    Building.from_section api0 secLEC = .ok none :=
  (from_section_arr_bus_none api0 secLEC).1 rfl

/-- C9: for a section meeting on one day for exactly one hour, starting on
a 30-minute block boundary at or after the 08:00 baseline, the box
`add_section` draws is exactly 2 blocks (8 rows) tall, and its top row is
the block index of the start time relative to 08:00 times the 4 rows per
block. -/
theorem one_hour_section_box (column_width : Nat) (mt : MeetingTime)
    (day : String)
    (_hday : mt.day_list = [day])
    (hblock : mt.time_begin % 30 = 0)
    (hstart : 480 ≤ mt.time_begin)
    (hwall : mt.time_begin < 1440)
    (hdur : mt.time_end = mt.time_begin + 60) :
    (section_box column_width mt day).2.1 -
        (section_box column_width mt day).1.1 = 2 * BLOCK_HEIGHT ∧
      (section_box column_width mt day).1.1 =
        (mt.time_begin - 480) / 30 * BLOCK_HEIGHT := by
  simp only [section_box, section_top_row, seconds_to_blocks,
    MeetingTime.length_seconds, MeetingTime.time_difference, timedeltaSeconds,
    RESOLUTION, BLOCK_HEIGHT, hdur]
  exact ⟨by omega, by omega⟩

/-- Witness for `one_hour_section_box`: Monday 10:00-11:00 in a column of
width 12 gives a box from row 16 to row 24. -/
theorem one_hour_section_box_witness :
    (section_box 12 mtMo10 "Mo").2.1 - (section_box 12 mtMo10 "Mo").1.1 =
        2 * BLOCK_HEIGHT ∧
      (section_box 12 mtMo10 "Mo").1.1 =
        (mtMo10.time_begin - 480) / 30 * BLOCK_HEIGHT :=
  one_hour_section_box 12 mtMo10 "Mo" rfl (by decide) (by decide)
    (by decide) rfl

theorem paintSteps_keeps_corner (d_row d_col : Nat) :
    ∀ (n : Nat) (cv : Canvas) (cur : Point) (cell : Point),
      cv cell = '+' → paintSteps cv cur d_row d_col n cell = '+' := by
  intro n
  induction n with
  | zero => intro cv cur cell h; exact h
  | succ m ih =>
    intro cv cur cell h
    simp only [paintSteps]
    apply ih
    by_cases hnext : cv (cur.1 + d_row, cur.2 + d_col) = '+'
    · rw [if_pos hnext]; exact h
    · rw [if_neg hnext]
      unfold setCell
      by_cases hcell : cell = (cur.1 + d_row, cur.2 + d_col)
      · rw [← hcell] at hnext; exact absurd h hnext
      · rw [if_neg hcell]; exact h

theorem draw_line_keeps_corner (cv : Canvas) (p q : Point) (cell : Point)
    (h : cv cell = '+') : draw_line cv p q cell = '+' := by
  unfold draw_line setCell
  by_cases he : cell = (if pointLe p q then q else p)
  · rw [if_pos he]
  · rw [if_neg he]
    by_cases hs : cell = (if pointLe p q then p else q)
    · rw [if_pos hs]
    · rw [if_neg hs]
      exact paintSteps_keeps_corner _ _ _ cv _ cell h

theorem draw_box_keeps_corner (cv : Canvas) (p q : Point) (cell : Point)
    (h : cv cell = '+') : draw_box cv p q cell = '+' := by
  unfold draw_box
  exact draw_line_keeps_corner _ _ _ _
    (draw_line_keeps_corner _ _ _ _
      (draw_line_keeps_corner _ _ _ _
        (draw_line_keeps_corner _ _ _ _ h)))

/-- C10: over any sequence of box- and line-drawing operations, a cell
already holding the corner character `'+'` still holds `'+'` afterwards —
edge characters (`'-'`, `'|'`, `'\'`) are written only after checking the
cell is not `'+'`, and the endpoint writes store `'+'` again, so corners
are never overwritten by edges when lines cross or coincide. -/
theorem corners_never_overwritten (ops : List DrawOp) :
    ∀ (cv : Canvas) (cell : Point), cv cell = '+' →
      applyOps cv ops cell = '+' := by
  induction ops with
  | nil => intro cv cell h; exact h
  | cons op ops ih =>
    intro cv cell h
    apply ih
    cases op with
    | line p q => exact draw_line_keeps_corner cv p q cell h
    | box p q => exact draw_box_keeps_corner cv p q cell h

/-- Witness for `corners_never_overwritten`: a corner at the origin
survives a line drawn along its row and a box drawn over it. -/
theorem corners_never_overwritten_witness :
    applyOps canvasWithCorner
      [DrawOp.line (0, 0) (0, 3), DrawOp.box (0, 0) (2, 3)] (0, 0) = '+' :=
  corners_never_overwritten
    [DrawOp.line (0, 0) (0, 3), DrawOp.box (0, 0) (2, 3)]
    canvasWithCorner (0, 0) rfl

end Schedumich
